import Mathlib

/-!
Shallow embedding of the online_bookstore persistence core: the JSON store
shape validation, the book repository over it, and the inventory/sales
services.  Python dynamic values are modelled by `JVal`; the two ambient
effects (`uuid.uuid4()` and `datetime.now()`) are threaded through an explicit
generator state `Gen`.  ISO-8601 timestamp strings are distinguished by
construction: `JVal.tstr t` denotes the `isoformat` rendering of the datetime
`t` (modelled as a natural number) while `JVal.str` covers other strings.
-/

namespace OnlineBookstore

/-- Parsed JSON values as stored in the backing file. -/
inductive JVal : Type where
  | null : JVal
  | bool (b : Bool) : JVal
  | num (n : Int) : JVal
  | str (s : String) : JVal
  | tstr (t : Nat) : JVal
  | arr (xs : List JVal) : JVal
  | obj (fields : List (String × JVal)) : JVal

/-- Domain errors from `errors.py`, together with the Python built-in
exceptions the code can raise: `keyError`, `valueError` and `typeError` model
`KeyError`, `ValueError` and `TypeError`; `nameError` models the `NameError`
raised when an undefined name is evaluated. -/
inductive Err : Type where
  | validation (field msg : String) : Err
  | bookNotFound (book_id isbn : Option String) : Err
  | duplicateISBN (isbn : String) : Err
  | outOfStock (isbn : String) (requested available : Int) : Err
  | storage (msg : String) : Err
  | keyError (key : String) : Err
  | valueError (msg : String) : Err
  | typeError (msg : String) : Err
  | nameError (name : String) : Err
deriving DecidableEq

/-- Generator state for `uuid.uuid4()` and `datetime.now()`. -/
structure Gen where
  nextUuid : Nat
  clock : Nat
deriving DecidableEq

/-- One call of `uuid.uuid4()`. -/
def Gen.uuid (g : Gen) : String × Gen :=
  ("uuid-" ++ toString g.nextUuid, { g with nextUuid := g.nextUuid + 1 })

/-- One call of `datetime.now()` (the clock only moves forward). -/
def Gen.now (g : Gen) : Nat × Gen :=
  (g.clock, { g with clock := g.clock + 1 })

/-- Python whitespace characters recognised by `str.strip()` and the regex
class `\s` (ASCII subset). -/
def isWs (c : Char) : Bool :=
  c = ' ' || c = '\t' || c = '\n' || c = '\r' || c = '\x0b' || c = '\x0c'

/-- Python `str.strip()`: drop whitespace from both ends. -/
def pyStrip (s : String) : String :=
  String.mk (((s.data.dropWhile isWs).reverse.dropWhile isWs).reverse)

/-- Python `str.lower()` (ASCII). -/
def pyLower (s : String) : String := String.mk (s.data.map Char.toLower)

/-- Python `str.upper()` (ASCII). -/
def pyUpper (s : String) : String := String.mk (s.data.map Char.toUpper)

/-- Removal step of `re.sub(r"[- ]", "", raw)`. -/
def stripHyphenSpace (s : String) : String :=
  String.mk (s.data.filter fun c => !(c = '-' || c = ' '))

/-- Removal step of the `Sale` variant `re.sub` of hyphens and whitespace. -/
def stripHyphenWs (s : String) : String :=
  String.mk (s.data.filter fun c => !(c = '-' || isWs c))

/-- The ISBN shape regex of `Book` and `Sale`: nine digits followed by a digit
or `X`, or thirteen digits. -/
def isbnMatch (s : String) : Bool :=
  let cs := s.data
  (cs.length == 10 && (cs.take 9).all Char.isDigit &&
    (cs.getLast?.elim false fun c => c.isDigit || c = 'X'))
  || (cs.length == 13 && cs.all Char.isDigit)

/-- Contiguous-sublist test on character lists. -/
def containsSub (needle : List Char) : List Char → Bool
  | [] => needle.isEmpty
  | c :: rest => needle.isPrefixOf (c :: rest) || containsSub needle rest

/-- Python substring containment `needle in hay`. -/
def pyIn (needle hay : String) : Bool := containsSub needle.data hay.data

instance {ε α : Type} [DecidableEq ε] [DecidableEq α] : DecidableEq (Except ε α) :=
  fun a b =>
  match a, b with
  | .ok x, .ok y =>
      if h : x = y then .isTrue (by rw [h]) else .isFalse (fun hc => h (by cases hc; rfl))
  | .error x, .error y =>
      if h : x = y then .isTrue (by rw [h]) else .isFalse (fun hc => h (by cases hc; rfl))
  | .ok _, .error _ => .isFalse (by intro hc; cases hc)
  | .error _, .ok _ => .isFalse (by intro hc; cases hc)

/-- Dict indexing `data[k]` (first binding wins, as in a parsed JSON object). -/
def jGet (fields : List (String × JVal)) (k : String) : Option JVal :=
  (fields.find? fun p => p.1 == k).map (·.2)

/-- Python `data.get(k)`: `None` both when the key is absent and when the key
is present with a `null` value. -/
def pyGet (fields : List (String × JVal)) (k : String) : Option JVal :=
  match jGet fields k with
  | some .null => none
  | v => v

/-- The model rendering of the timestamp string `isoformat t`; it contains a
hyphen and no surrounding whitespace, like every real ISO-8601 rendering. -/
def isoStr (t : Nat) : String := "1970-01-01T" ++ toString t

/-- Python `int(x)`: ints pass, booleans coerce, numeric strings parse, other
strings raise `ValueError`, non-stringlike values raise `TypeError`. -/
def pyInt : JVal → Except Err Int
  | .num n => .ok n
  | .bool b => .ok (if b then 1 else 0)
  | .str s =>
      match (pyStrip s).toInt? with
      | some n => .ok n
      | none => .error (.valueError "invalid literal for int")
  | .tstr _ => .error (.valueError "invalid literal for int")
  | .null => .error (.typeError "int argument must not be None")
  | .arr _ => .error (.typeError "int argument")
  | .obj _ => .error (.typeError "int argument")

/-- Python truthiness `bool(x)`. -/
def pyBool : JVal → Bool
  | .null => false
  | .bool b => b
  | .num n => n != 0
  | .str s => s != ""
  | .tstr _ => true
  | .arr xs => !xs.isEmpty
  | .obj fs => !fs.isEmpty

/-- Python `datetime.fromisoformat`: succeeds exactly on well-formed ISO
strings, raises `ValueError` on other strings, `TypeError` on non-strings. -/
def fromisoformat : JVal → Except Err Nat
  | .tstr t => .ok t
  | .str _ => .error (.valueError "Invalid isoformat string")
  | _ => .error (.typeError "fromisoformat argument must be str")

/-- Exact decimal number `num / 10 ^ exp`, the model of Python `Decimal`
values (which are exact scaled integers). -/
structure Dec where
  num : Int
  exp : Nat
deriving DecidableEq

def pow10 : Nat → Int
  | 0 => 1
  | n + 1 => 10 * pow10 n

/-- Division of `n` by a positive `d` rounded half to even, the default
`ROUND_HALF_EVEN` of `Decimal.quantize`. -/
def roundHalfEvenDiv (n d : Int) : Int :=
  let q := n.ediv d
  let r := n.emod d
  if 2 * r < d then q
  else if d < 2 * r then q + 1
  else if q % 2 = 0 then q else q + 1

/-- `Book._to_cents` on an exact decimal amount: reject negatives, multiply by
100 and quantize to an integer half-to-even. -/
def to_cents (amount : Dec) : Except Err Int :=
  if amount.num < 0 then .error (.validation "price" "Must be >= 0")
  else .ok (roundHalfEvenDiv (amount.num * 100) (pow10 amount.exp))

/-- The in-memory `Book` entity with its validated fields. -/
structure Book where
  id : String
  created_at : Nat
  title : String
  author : String
  isbn : String
  currency : String
  price_cents : Int
  quantity : Int
  archived : Bool
deriving DecidableEq

/-- `Book._validate_non_empty`: requires a string with non-blank content and
returns it stripped.  A timestamp string is a non-blank string. -/
def validate_non_empty (field : String) : JVal → Except Err String
  | .str s =>
      if pyStrip s = "" then .error (.validation field "Must be a non-empty string")
      else .ok (pyStrip s)
  | .tstr t => .ok (isoStr t)
  | _ => .error (.validation field "Must be a non-empty string")

/-- `Book._validate_currency`: non-blank string, stripped and uppercased. -/
def validate_currency : JVal → Except Err String
  | .str s =>
      if pyStrip s = "" then .error (.validation "currency" "Must be a non-empty string")
      else .ok (pyUpper (pyStrip s))
  | .tstr t => .ok (pyUpper (isoStr t))
  | _ => .error (.validation "currency" "Must be a non-empty string")

/-- `Book._normalize_isbn`: strings only; hyphens and spaces removed,
uppercased. -/
def book_normalize_isbn : JVal → Except Err String
  | .str s => .ok (pyUpper (stripHyphenSpace s))
  | .tstr t => .ok (pyUpper (stripHyphenSpace (isoStr t)))
  | _ => .error (.validation "isbn" "ISBN must be a string")

/-- `Book._validate_non_negative_int`. -/
def validate_non_negative_int (field : String) (n : Int) : Except Err Int :=
  if n < 0 then .error (.validation field "Must be a non-negative integer") else .ok n

/-- `Book._validate_positive_int` / `Sale._validate_positive_int`. -/
def validate_positive_int (field : String) (n : Int) : Except Err Int :=
  if n ≤ 0 then .error (.validation field "Must be a positive integer") else .ok n

/-- `Book.__init__`, validations in source order. `book_id` follows the Python
truthiness of `book_id or str(uuid.uuid4())`, so `None` and the empty string
both draw a fresh uuid; a missing `created_at` reads the clock. -/
def bookInit (g : Gen) (title author isbn : JVal) (price : Dec) (currency : JVal)
    (quantity : Int) (book_id : Option String) (archived : Bool)
    (created_at : Option Nat) : Except Err (Book × Gen) := do
  let (bid, g) := match book_id with
    | some s => if s = "" then g.uuid else (s, g)
    | none => g.uuid
  let (ts, g) := match created_at with
    | some t => (t, g)
    | none => g.now
  let title ← validate_non_empty "title" title
  let author ← validate_non_empty "author" author
  let isbn ← book_normalize_isbn isbn
  if !isbnMatch isbn then
    throw (.validation "isbn" "Must be 10 or 13 digits")
  let currency ← validate_currency currency
  let price_cents ← to_cents price
  let quantity ← validate_non_negative_int "quantity" quantity
  pure ({ id := bid, created_at := ts, title := title, author := author,
          isbn := isbn, currency := currency, price_cents := price_cents,
          quantity := quantity, archived := archived }, g)

/-- `Book.increase_stock`. -/
def Book.increase_stock (b : Book) (n : Int) : Except Err Book := do
  let inc ← validate_positive_int "n" n
  pure { b with quantity := b.quantity + inc }

/-- `Book.decrease_stock`. -/
def Book.decrease_stock (b : Book) (n : Int) : Except Err Book := do
  let dec ← validate_positive_int "n" n
  if b.quantity < dec then
    throw (.validation "quantity" "Cannot decrease below available stock")
  pure { b with quantity := b.quantity - dec }

/-- `Book.to_dict`. -/
def Book.to_dict (b : Book) : List (String × JVal) :=
  [("id", .str b.id), ("title", .str b.title), ("author", .str b.author),
   ("isbn", .str b.isbn), ("price_cents", .num b.price_cents),
   ("currency", .str b.currency), ("quantity", .num b.quantity),
   ("archived", .bool b.archived), ("created_at", .tstr b.created_at)]

/-- `Book.from_dict`, evaluated in source order, with the non-`ValidationError`
escapes made explicit: a required key that is missing raises `KeyError`; a
malformed timestamp or a non-numeric `price_cents`/`quantity` raises
`ValueError`.  An `id` value that is neither a string nor `null` is outside the
model (the code would store it unvalidated; no record written by the system has
one). -/
def Book.from_dict (g : Gen) (j : JVal) : Except Err (Book × Gen) := do
  match j with
  | .obj data =>
    let created_at ← match jGet data "created_at" with
      | some v => Except.map some (fromisoformat v)
      | none => pure none
    let pcRaw ← match jGet data "price_cents" with
      | some v => pure v
      | none => throw (.keyError "price_cents")
    let pc ← pyInt pcRaw
    let price : Dec := { num := pc, exp := 2 }
    let title ← match jGet data "title" with
      | some v => pure v
      | none => throw (.keyError "title")
    let author ← match jGet data "author" with
      | some v => pure v
      | none => throw (.keyError "author")
    let isbn ← match jGet data "isbn" with
      | some v => pure v
      | none => throw (.keyError "isbn")
    let currency := (jGet data "currency").getD (.str "USD")
    let quantity ← pyInt ((jGet data "quantity").getD (.num 0))
    let book_id ← match jGet data "id" with
      | none => pure none
      | some .null => pure none
      | some (.str s) => pure (some s)
      | some _ => throw (.typeError "id")
    let archived := pyBool ((jGet data "archived").getD (.bool false))
    bookInit g title author isbn price currency quantity book_id archived created_at
  | _ => throw (.typeError "argument is not a dict")

/-- The immutable `Sale` dataclass. -/
structure Sale where
  sale_id : String
  book_id : String
  isbn : String
  qty : Int
  unit_price_cents : Int
  currency : String
  timestamp : Nat
deriving DecidableEq

/-- `Sale._normalize_isbn` on a string input: hyphens and whitespace removed,
uppercased, then the shape regex must match. -/
def sale_normalize_isbn (raw : String) : Except Err String :=
  let cleaned := pyUpper (stripHyphenWs raw)
  if isbnMatch cleaned then .ok cleaned
  else .error (.validation "isbn" "Must be 10 or 13 digits")

/-- `Sale.total_cents`. -/
def Sale.total_cents (s : Sale) : Int := s.unit_price_cents * s.qty

/-- `Sale.create`: validations in source order, then a fresh uuid for
`sale_id`; a missing timestamp reads the clock. -/
def Sale.create (g : Gen) (book_id : String) (isbn : String) (qty : Int)
    (unit_price_cents : Int) (currency : String) (timestamp : Option Nat) :
    Except Err (Sale × Gen) := do
  if pyStrip book_id = "" then
    throw (.validation "book_id" "Must be a non-empty string")
  let _ ← validate_positive_int "qty" qty
  let _ ← validate_non_negative_int "unit_price_cents" unit_price_cents
  let norm_isbn ← sale_normalize_isbn isbn
  if pyStrip currency = "" then
    throw (.validation "currency" "Must be a non-empty string")
  let norm_currency := pyUpper (pyStrip currency)
  let (sid, g) := g.uuid
  let (ts, g) := match timestamp with
    | some t => (t, g)
    | none => g.now
  pure ({ sale_id := sid, book_id := pyStrip book_id, isbn := norm_isbn,
          qty := qty, unit_price_cents := unit_price_cents,
          currency := norm_currency, timestamp := ts }, g)

/-- `Sale.to_dict`. -/
def Sale.to_dict (s : Sale) : List (String × JVal) :=
  [("sale_id", .str s.sale_id), ("book_id", .str s.book_id),
   ("isbn", .str s.isbn), ("qty", .num s.qty),
   ("unit_price_cents", .num s.unit_price_cents),
   ("currency", .str s.currency), ("timestamp", .tstr s.timestamp)]

/-- A required string field of a sale record. The Python dataclass stores the
raw dict value without validation; the model types the field as the string
every record written by the system carries. -/
def reqStr (data : List (String × JVal)) (k : String) : Except Err String :=
  match jGet data k with
  | some (.str s) => .ok s
  | some _ => .error (.typeError k)
  | none => .error (.keyError k)

/-- `Sale.from_dict`, evaluated in source order: the timestamp is parsed first,
`qty` and `unit_price_cents` go through `int(...)`, `currency` defaults to
`USD` when the key is absent. -/
def Sale.from_dict (j : JVal) : Except Err Sale := do
  match j with
  | .obj data =>
    let ts ← match jGet data "timestamp" with
      | some v => fromisoformat v
      | none => throw (.keyError "timestamp")
    let sale_id ← reqStr data "sale_id"
    let book_id ← reqStr data "book_id"
    let isbn ← reqStr data "isbn"
    let qty ← match jGet data "qty" with
      | some v => pyInt v
      | none => throw (.keyError "qty")
    let upc ← match jGet data "unit_price_cents" with
      | some v => pyInt v
      | none => throw (.keyError "unit_price_cents")
    let currency ← match jGet data "currency" with
      | none => pure "USD"
      | some (.str s) => pure s
      | some _ => throw (.typeError "currency")
    pure { sale_id := sale_id, book_id := book_id, isbn := isbn, qty := qty,
           unit_price_cents := upc, currency := currency, timestamp := ts }
  | _ => throw (.typeError "argument is not a dict")

/-- A well-formed persisted document: the two arrays of raw records, the shape
every successful `JSONStore.load` returns. -/
structure Doc where
  books : List JVal
  sales : List JVal

/-- Persistent store content plus the ambient generator state. -/
structure St where
  doc : Doc
  gen : Gen

/-- The shared array-shape check of `JSONStore._validate_and_normalize`. -/
def arraysOf (b s : JVal) : Except Err (List JVal × List JVal) :=
  match b, s with
  | .arr bs, .arr ss => .ok (bs, ss)
  | _, _ => .error (.storage "books and sales must be arrays")

/-- `JSONStore._validate_and_normalize` on a parsed JSON root.  `data.get`
yields `None` both for an absent key and for a present `null` value; with
`allow_missing` those default to empty arrays, otherwise they are an error. -/
def validate_and_normalize (data : JVal) (allow_missing : Bool) :
    Except Err (List JVal × List JVal) :=
  match data with
  | .obj fields =>
    let books := pyGet fields "books"
    let sales := pyGet fields "sales"
    if books.isNone || sales.isNone then
      if allow_missing then
        arraysOf (books.getD (.arr [])) (sales.getD (.arr []))
      else .error (.storage "JSON must contain books and sales")
    else arraysOf (books.getD .null) (sales.getD .null)
  | _ => .error (.storage "Root JSON must be an object")

/-- `JSONStore.load` on an already-parsed document (the missing-file bootstrap
and the JSON parse failure are I/O paths outside the model). -/
def JSONStore.loadDoc (data : JVal) : Except Err (List JVal × List JVal) :=
  validate_and_normalize data true

/-- The validation step of `JSONStore.save` (the atomic temp-file write and
rename are I/O outside the model). -/
def JSONStore.saveDoc (data : JVal) : Except Err (List JVal × List JVal) :=
  validate_and_normalize data false

/-- `BookRepository._normalize_isbn` on a string input. -/
def repo_normalize_isbn (raw : String) : String := pyUpper (stripHyphenSpace raw)

/-- `BookRepository._load_books`: decode each raw record, skipping exactly the
records that raise `ValidationError`; any other exception aborts the load. -/
def load_books (g : Gen) : List JVal → Except Err (List Book × Gen)
  | [] => .ok ([], g)
  | j :: rest =>
    match Book.from_dict g j with
    | .ok (b, g1) =>
        match load_books g1 rest with
        | .ok (bs, g2) => .ok (b :: bs, g2)
        | .error e => .error e
    | .error (.validation _ _) => load_books g rest
    | .error e => .error e

/-- `BookRepository._save_books`: reload the document, replace only the books
array with the encoded list, save.  The sales array is carried over
untouched. -/
def save_books (st : St) (books : List Book) : St :=
  { st with doc := { books := books.map (fun b => .obj b.to_dict),
                     sales := st.doc.sales } }

/-- `BookRepository.list_all`. -/
def list_all (st : St) (include_archived : Bool) : Except Err (List Book × Gen) :=
  match load_books st.gen st.doc.books with
  | .ok (books, g) =>
      if include_archived then .ok (books, g)
      else .ok (books.filter (fun b => !b.archived), g)
  | .error e => .error e

/-- The match predicate of `BookRepository.search`: case-insensitive substring
of title, author, or normalized ISBN. -/
def searchMatch (q : String) (b : Book) : Bool :=
  pyIn q (pyLower b.title) || pyIn q (pyLower b.author) || pyIn q (pyLower b.isbn)

/-- Collection loop of `BookRepository.search`: append each match, then stop
once the result holds `limit` entries (the length test runs after the
append, so even a non-positive limit lets the first match through). -/
def searchCollect (q : String) (limit : Int) : List Book → List Book
  | [] => []
  | b :: rest =>
    if searchMatch q b then
      if limit ≤ 1 then [b] else b :: searchCollect q (limit - 1) rest
    else searchCollect q limit rest

/-- Ascending order on the Python sort key `(title.lower(), author.lower())`. -/
def searchKeyLe (a b : Book) : Prop :=
  pyLower a.title < pyLower b.title ∨
    (pyLower a.title = pyLower b.title ∧ pyLower a.author ≤ pyLower b.author)

instance : DecidableRel searchKeyLe := fun a b => by
  unfold searchKeyLe; infer_instance

instance : IsTotal Book searchKeyLe :=
  ⟨fun a b => by
    unfold searchKeyLe
    rcases lt_trichotomy (pyLower a.title) (pyLower b.title) with h | h | h
    · exact Or.inl (Or.inl h)
    · rcases le_total (pyLower a.author) (pyLower b.author) with h2 | h2
      · exact Or.inl (Or.inr ⟨h, h2⟩)
      · exact Or.inr (Or.inr ⟨h.symm, h2⟩)
    · exact Or.inr (Or.inl h)⟩

instance : IsTrans Book searchKeyLe :=
  ⟨fun a b c hab hbc => by
    unfold searchKeyLe at hab hbc ⊢
    rcases hab with h1 | ⟨h1, h1'⟩ <;> rcases hbc with h2 | ⟨h2, h2'⟩
    · exact Or.inl (h1.trans h2)
    · exact Or.inl (h2 ▸ h1)
    · exact Or.inl (h1 ▸ h2)
    · exact Or.inr ⟨h1.trans h2, h1'.trans h2'⟩⟩

/-- `BookRepository.search`.  Python `list.sort` is stable; `insertionSort`
over the same total preorder computes the same list. -/
def search (st : St) (query : String) (include_archived : Bool) (limit : Int) :
    Except Err (List Book × Gen) :=
  let q := pyLower (pyStrip query)
  if q = "" then .ok ([], st.gen)
  else
    match list_all st include_archived with
    | .ok (books, g) =>
        .ok (List.insertionSort searchKeyLe (searchCollect q limit books), g)
    | .error e => .error e

/-- `BookRepository.get_by_id`. -/
def get_by_id (st : St) (book_id : String) : Except Err (Book × Gen) :=
  match load_books st.gen st.doc.books with
  | .ok (books, g) =>
      match books.find? (fun b => b.id == book_id) with
      | some b => .ok (b, g)
      | none => .error (.bookNotFound (some book_id) none)
  | .error e => .error e

/-- `BookRepository.get_by_isbn`. -/
def get_by_isbn (st : St) (isbn : String) : Except Err (Book × Gen) :=
  let norm := repo_normalize_isbn isbn
  match load_books st.gen st.doc.books with
  | .ok (books, g) =>
      match books.find? (fun b => b.isbn == norm) with
      | some b => .ok (b, g)
      | none => .error (.bookNotFound none (some norm))
  | .error e => .error e

/-- `BookRepository._find_index_by_id`. -/
def find_index_by_id (books : List Book) (book_id : String) : Option Nat :=
  books.findIdx? (fun b => b.id == book_id)

/-- `BookRepository._find_index_by_isbn`. -/
def find_index_by_isbn (books : List Book) (isbn : String) : Option Nat :=
  books.findIdx? (fun b => b.isbn == isbn)

/-- `BookRepository.add`. -/
def BookRepository.add (st : St) (book : Book) : Except Err Unit × St :=
  match load_books st.gen st.doc.books with
  | .ok (books, g) =>
      if books.any (fun b => b.isbn == book.isbn) then
        (.error (.duplicateISBN book.isbn), { st with gen := g })
      else (.ok (), save_books { st with gen := g } (books ++ [book]))
  | .error e => (.error e, st)

/-- `BookRepository.update`.  The duplicate-ISBN branch of the source evaluates
the misspelled name `DuplicateISBNErrror`, which is undefined, so Python raises
`NameError` there instead of the intended `DuplicateISBNError`. -/
def BookRepository.update (st : St) (book : Book) : Except Err Unit × St :=
  match load_books st.gen st.doc.books with
  | .ok (books, g) =>
      match find_index_by_id books book.id with
      | none => (.error (.bookNotFound (some book.id) none), { st with gen := g })
      | some idx =>
          if books.enum.any (fun p => p.1 != idx && p.2.isbn == book.isbn) then
            (.error (.nameError "DuplicateISBNErrror"), { st with gen := g })
          else (.ok (), save_books { st with gen := g } (books.set idx book))
  | .error e => (.error e, st)

/-- `BookRepository.remove`. -/
def BookRepository.remove (st : St) (book_id : String) : Except Err Unit × St :=
  match load_books st.gen st.doc.books with
  | .ok (books, g) =>
      match find_index_by_id books book_id with
      | none => (.error (.bookNotFound (some book_id) none), { st with gen := g })
      | some idx => (.ok (), save_books { st with gen := g } (books.eraseIdx idx))
  | .error e => (.error e, st)

/-- In-place archival step `books[idx].mark_archived()`. -/
def setArchived : Nat → List Book → List Book
  | _, [] => []
  | 0, b :: rest => { b with archived := true } :: rest
  | n + 1, b :: rest => b :: setArchived n rest

/-- `BookRepository.archive_by_isbn`: reload, mark the first ISBN match
archived in place, save. -/
def archive_by_isbn (st : St) (isbn : String) : Except Err Unit × St :=
  match load_books st.gen st.doc.books with
  | .ok (books, g) =>
      let norm := repo_normalize_isbn isbn
      match find_index_by_isbn books norm with
      | none => (.error (.bookNotFound none (some norm)), { st with gen := g })
      | some idx => (.ok (), save_books { st with gen := g } (setArchived idx books))
  | .error e => (.error e, st)

/-- `InventoryService.add_book`: restock-or-create.  Only `BookNotFoundError`
from the lookup selects the create branch; other exceptions propagate. -/
def add_book (st : St) (title author isbn : String) (price : Dec)
    (currency : String) (quantity : Int) (update_price_if_changed : Bool) :
    Except Err Book × St :=
  if quantity ≤ 0 then (.error (.validation "quantity" "Must be > 0."), st)
  else
    match get_by_isbn st isbn with
    | .error (.bookNotFound _ _) =>
        match bookInit st.gen (.str title) (.str author) (.str isbn) price
            (.str currency) quantity none false none with
        | .ok (book, g) =>
            let r := BookRepository.add { st with gen := g } book
            (r.1.map (fun _ => book), r.2)
        | .error e => (.error e, st)
    | .error e => (.error e, st)
    | .ok (existing, g) =>
        match existing.increase_stock quantity with
        | .error e => (.error e, { st with gen := g })
        | .ok b1 =>
            match (if update_price_if_changed then
                    (to_cents price).map (fun pc => { b1 with price_cents := pc })
                   else .ok b1) with
            | .error e => (.error e, { st with gen := g })
            | .ok b2 =>
                let r := BookRepository.update { st with gen := g } b2
                (r.1.map (fun _ => b2), r.2)

/-- `InventoryService.set_price`. -/
def set_price (st : St) (isbn : String) (new_price : Dec) : Except Err Book × St :=
  match get_by_isbn st isbn with
  | .error e => (.error e, st)
  | .ok (book, g) =>
      match to_cents new_price with
      | .error e => (.error e, { st with gen := g })
      | .ok pc =>
          let b := { book with price_cents := pc }
          let r := BookRepository.update { st with gen := g } b
          (r.1.map (fun _ => b), r.2)

/-- `InventoryService.set_quantity`. -/
def set_quantity (st : St) (isbn : String) (new_qty : Int) : Except Err Book × St :=
  if new_qty < 0 then (.error (.validation "quantity" "Must be an integer >= 0."), st)
  else
    match get_by_isbn st isbn with
    | .error e => (.error e, st)
    | .ok (book, g) =>
        let b := { book with quantity := new_qty }
        let r := BookRepository.update { st with gen := g } b
        (r.1.map (fun _ => b), r.2)

/-- `InventoryService.increase_stock`. -/
def inventory_increase_stock (st : St) (isbn : String) (by_ : Int) :
    Except Err Book × St :=
  match get_by_isbn st isbn with
  | .error e => (.error e, st)
  | .ok (book, g) =>
      match book.increase_stock by_ with
      | .error e => (.error e, { st with gen := g })
      | .ok b =>
          let r := BookRepository.update { st with gen := g } b
          (r.1.map (fun _ => b), r.2)

/-- `InventoryService.decrease_stock`. -/
def inventory_decrease_stock (st : St) (isbn : String) (by_ : Int) :
    Except Err Book × St :=
  match get_by_isbn st isbn with
  | .error e => (.error e, st)
  | .ok (book, g) =>
      match book.decrease_stock by_ with
      | .error e => (.error e, { st with gen := g })
      | .ok b =>
          let r := BookRepository.update { st with gen := g } b
          (r.1.map (fun _ => b), r.2)

/-- `InventoryService.archive_if_empty`: archives through the repository but
returns the copy that was loaded before delegating, without re-reading it. -/
def archive_if_empty (st : St) (isbn : String) : Except Err Book × St :=
  match get_by_isbn st isbn with
  | .error e => (.error e, st)
  | .ok (book, g) =>
      if book.quantity ≠ 0 then
        (.error (.validation "quantity" "Can archive only when quantity is 0."),
          { st with gen := g })
      else
        let r := archive_by_isbn { st with gen := g } isbn
        (r.1.map (fun _ => book), r.2)

/-- `SalesService.sell`: validate the quantity, look the book up, check the
archived flag and the stock, create the sale with the price and currency at
call time, decrement and persist the book, then reload the document and append
the encoded sale record in a second save. -/
def sell (st : St) (isbn : String) (qty : Int) : Except Err Sale × St :=
  if qty ≤ 0 then (.error (.validation "qty" "Must be an integer > 0."), st)
  else
    match get_by_isbn st isbn with
    | .error e => (.error e, st)
    | .ok (book, g) =>
        if book.archived then
          (.error (.validation "book" "Cannot sell an archived book."),
            { st with gen := g })
        else if book.quantity < qty then
          (.error (.outOfStock book.isbn qty book.quantity), { st with gen := g })
        else
          match Sale.create g book.id book.isbn qty book.price_cents
              book.currency none with
          | .error e => (.error e, { st with gen := g })
          | .ok (sale, g2) =>
              match book.decrease_stock qty with
              | .error e => (.error e, { st with gen := g2 })
              | .ok book2 =>
                  let stu := BookRepository.update { st with gen := g2 } book2
                  match stu.1 with
                  | .error e => (.error e, stu.2)
                  | .ok _ =>
                      (.ok sale,
                        { stu.2 with doc := { stu.2.doc with
                            sales := stu.2.doc.sales ++ [.obj sale.to_dict] } })

/-- Decoding loop of `list_sales`: every record must decode. -/
def decode_sales : List JVal → Except Err (List Sale)
  | [] => .ok []
  | j :: rest => do
      let s ← Sale.from_dict j
      let ss ← decode_sales rest
      pure (s :: ss)

/-- Ascending timestamp order used by the `list_sales` sort. -/
def tsLe (a b : Sale) : Prop := a.timestamp ≤ b.timestamp

instance : DecidableRel tsLe := fun a b => by
  unfold tsLe; infer_instance

instance : IsTotal Sale tsLe :=
  ⟨fun a b => by unfold tsLe; omega⟩

instance : IsTrans Sale tsLe :=
  ⟨fun a b c hab hbc => by unfold tsLe at hab hbc ⊢; omega⟩

/-- `SalesService.list_sales`.  The slice `sales[-limit:]` with a positive
limit keeps the last `limit` elements of the sorted list. -/
def list_sales (st : St) (isbn : Option String) (limit : Option Int) :
    Except Err (List Sale) := do
  let sales ← decode_sales st.doc.sales
  let sales ← match isbn with
    | some s =>
        if s != "" && pyStrip s != "" then do
          let norm ← sale_normalize_isbn s
          pure (sales.filter (fun x => x.isbn == norm))
        else pure sales
    | none => pure sales
  let sorted := List.insertionSort tsLe sales
  match limit with
  | some n => if 0 < n then pure (sorted.drop (sorted.length - n.toNat)) else pure sorted
  | none => pure sorted

/-- Well-formedness of a decoded book as the system writes them: stripped
non-empty `id`/`title`/`author`, an ISBN that matches the shape regex and is a
fixed point of both normalizations, a stripped uppercase non-empty currency,
and non-negative price and quantity. -/
def Book.wf (b : Book) : Bool :=
  pyStrip b.id == b.id && b.id != "" &&
  pyStrip b.title == b.title && b.title != "" &&
  pyStrip b.author == b.author && b.author != "" &&
  isbnMatch b.isbn &&
  pyUpper b.isbn == b.isbn && stripHyphenSpace b.isbn == b.isbn &&
  stripHyphenWs b.isbn == b.isbn &&
  pyStrip b.currency == b.currency && pyUpper b.currency == b.currency &&
  b.currency != "" &&
  decide (0 ≤ b.price_cents) && decide (0 ≤ b.quantity)

/-- Sample catalog entry used by the concrete witnesses. -/
def bookA : Book where
  id := "B1"
  created_at := 5
  title := "Clean Code"
  author := "Uncle Bob"
  isbn := "9780132350884"
  currency := "USD"
  price_cents := 1000
  quantity := 2
  archived := false

/-- Second sample catalog entry (distinct ISBN, zero stock). -/
def bookB : Book where
  id := "B2"
  created_at := 6
  title := "DDD"
  author := "Evans"
  isbn := "9780321125217"
  currency := "USD"
  price_cents := 1500
  quantity := 0
  archived := false

/-- Sample generator state. -/
def gen0 : Gen := { nextUuid := 0, clock := 10 }

/-- Sample store state holding both sample books and no sales. -/
def stAB : St :=
  { doc := { books := [.obj bookA.to_dict, .obj bookB.to_dict], sales := [] },
    gen := gen0 }

/-- Sample state whose only book is archived (with zero stock). -/
def stArch : St :=
  { doc := { books := [.obj { bookB with archived := true }.to_dict], sales := [] },
    gen := gen0 }

/-- Raw record missing the required `title` key (decoding raises `KeyError`). -/
def recNoTitle : JVal :=
  .obj [("id", .str "B9"), ("author", .str "A"),
        ("isbn", .str "9780132350884"), ("price_cents", .num 100),
        ("created_at", .tstr 3)]

/-- Raw record with a malformed `created_at` (decoding raises `ValueError`). -/
def recBadTs : JVal :=
  .obj [("id", .str "B8"), ("title", .str "T"), ("author", .str "A"),
        ("isbn", .str "9780132350884"), ("price_cents", .num 100),
        ("created_at", .str "oops")]

/-- Raw record with a blank title (decoding raises `ValidationError`). -/
def recEmptyTitle : JVal :=
  .obj [("id", .str "B7"), ("title", .str "  "), ("author", .str "A"),
        ("isbn", .str "9780132350884"), ("price_cents", .num 100),
        ("created_at", .tstr 3)]

/-- Sample state whose books array holds one good record and one record with a
missing `title` key. -/
def stMissingField : St :=
  { doc := { books := [.obj bookA.to_dict, recNoTitle], sales := [] },
    gen := gen0 }

/-- Sample sale (the chronologically later one). -/
def saleX : Sale :=
  { sale_id := "S1", book_id := "B1", isbn := "9780132350884", qty := 1,
    unit_price_cents := 1000, currency := "USD", timestamp := 20 }

/-- Sample sale (the chronologically earlier one). -/
def saleY : Sale :=
  { sale_id := "S2", book_id := "B2", isbn := "9780321125217", qty := 2,
    unit_price_cents := 1500, currency := "USD", timestamp := 15 }

/-- Sample state with two stored sales, out of timestamp order. -/
def stSales : St :=
  { doc := { books := [], sales := [.obj saleX.to_dict, .obj saleY.to_dict] },
    gen := gen0 }

/-! Theorems.  Claim C5: load/save shape validation. -/

/-- C5 counterexample: the claim says both `load` and `save` fail with
`StorageError` whenever a present top-level field is not a sequence, but a
document whose `books` key is present with value `null` loads successfully
(`dict.get` conflates a present `null` with an absent key), substituting the
empty list. -/
theorem claim_C5_counterexample :
    JSONStore.loadDoc (.obj [("books", .null), ("sales", .arr [])]) = .ok ([], []) := rfl

/-- C5 (amended): for a parsed object root, `load` substitutes an empty
sequence for a `books`/`sales` key that is absent or has a `null` value and
succeeds when the remaining fields are sequences; `save` fails with
`StorageError` when either key is absent or null; both operations fail with
`StorageError` when a present non-null field is not a sequence, and when the
root is not an object. -/
theorem claim_C5_amended :
    (∀ fields ss, pyGet fields "books" = none →
        pyGet fields "sales" = some (.arr ss) →
        JSONStore.loadDoc (.obj fields) = .ok ([], ss)) ∧
    (∀ fields bs, pyGet fields "books" = some (.arr bs) →
        pyGet fields "sales" = none →
        JSONStore.loadDoc (.obj fields) = .ok (bs, [])) ∧
    (∀ fields, pyGet fields "books" = none → pyGet fields "sales" = none →
        JSONStore.loadDoc (.obj fields) = .ok ([], [])) ∧
    (∀ fields bs ss, pyGet fields "books" = some (.arr bs) →
        pyGet fields "sales" = some (.arr ss) →
        JSONStore.loadDoc (.obj fields) = .ok (bs, ss) ∧
        JSONStore.saveDoc (.obj fields) = .ok (bs, ss)) ∧
    (∀ fields, (pyGet fields "books" = none ∨ pyGet fields "sales" = none) →
        ∃ m, JSONStore.saveDoc (.obj fields) = .error (.storage m)) ∧
    (∀ fields v, pyGet fields "books" = some v → (∀ xs, v ≠ .arr xs) →
        (∃ m, JSONStore.loadDoc (.obj fields) = .error (.storage m)) ∧
        (∃ m, JSONStore.saveDoc (.obj fields) = .error (.storage m))) ∧
    (∀ fields v, pyGet fields "sales" = some v → (∀ xs, v ≠ .arr xs) →
        (∃ m, JSONStore.loadDoc (.obj fields) = .error (.storage m)) ∧
        (∃ m, JSONStore.saveDoc (.obj fields) = .error (.storage m))) ∧
    (∀ j : JVal, (∀ fields, j ≠ .obj fields) →
        (∃ m, JSONStore.loadDoc j = .error (.storage m)) ∧
        (∃ m, JSONStore.saveDoc j = .error (.storage m))) := by
  refine ⟨?_, ?_, ?_, ?_, ?_, ?_, ?_, ?_⟩
  · intro fields ss hb hs
    simp [JSONStore.loadDoc, validate_and_normalize, hb, hs, arraysOf]
  · intro fields bs hb hs
    simp [JSONStore.loadDoc, validate_and_normalize, hb, hs, arraysOf]
  · intro fields hb hs
    simp [JSONStore.loadDoc, validate_and_normalize, hb, hs, arraysOf]
  · intro fields bs ss hb hs
    constructor
    · simp [JSONStore.loadDoc, validate_and_normalize, hb, hs, arraysOf]
    · simp [JSONStore.saveDoc, validate_and_normalize, hb, hs, arraysOf]
  · intro fields h
    refine ⟨"JSON must contain books and sales", ?_⟩
    rcases h with h | h <;>
      simp [JSONStore.saveDoc, validate_and_normalize, h]
  · intro fields v hb hv
    have harr : ∀ w, arraysOf v w = .error (.storage "books and sales must be arrays") := by
      intro w
      cases v with
      | arr xs => exact absurd rfl (hv xs)
      | _ => cases w <;> rfl
    constructor
    · refine ⟨"books and sales must be arrays", ?_⟩
      simp only [JSONStore.loadDoc, validate_and_normalize, hb]
      cases hs : pyGet fields "sales" <;> simp [hs, harr]
    · cases hs : pyGet fields "sales" with
      | none =>
          refine ⟨"JSON must contain books and sales", ?_⟩
          simp [JSONStore.saveDoc, validate_and_normalize, hb, hs]
      | some w =>
          refine ⟨"books and sales must be arrays", ?_⟩
          simp [JSONStore.saveDoc, validate_and_normalize, hb, hs, harr]
  · intro fields v hs hv
    have harr : ∀ w, arraysOf w v = .error (.storage "books and sales must be arrays") := by
      intro w
      cases v with
      | arr xs => exact absurd rfl (hv xs)
      | _ => cases w <;> rfl
    constructor
    · refine ⟨"books and sales must be arrays", ?_⟩
      simp only [JSONStore.loadDoc, validate_and_normalize, hs]
      cases hb : pyGet fields "books" <;> simp [hb, harr]
    · cases hb : pyGet fields "books" with
      | none =>
          refine ⟨"JSON must contain books and sales", ?_⟩
          simp [JSONStore.saveDoc, validate_and_normalize, hb, hs]
      | some w =>
          refine ⟨"books and sales must be arrays", ?_⟩
          simp [JSONStore.saveDoc, validate_and_normalize, hb, hs, harr]
  · intro j hj
    refine ⟨⟨"Root JSON must be an object", ?_⟩, ⟨"Root JSON must be an object", ?_⟩⟩ <;>
      cases j <;> first
        | exact absurd rfl (hj _)
        | rfl

/-- C5 witness: the amended theorem applied at concrete documents. -/
theorem claim_C5_witness :
    JSONStore.loadDoc (.obj [("sales", .arr [])]) = .ok ([], []) :=
  claim_C5_amended.1 [("sales", .arr [])] [] rfl rfl

/-! Claim C3: update with a colliding ISBN. -/

/-- C3: at a document holding two books, updating the second book with the
first one's ISBN reaches the duplicate check, whose `raise` line evaluates the
misspelled class name `DuplicateISBNErrror`; Python therefore raises
`NameError`, not the intended `DuplicateISBNError`.  The stored books
collection is left unchanged (no save happens). -/
theorem claim_C3_update_duplicate_raises_name_error :
    BookRepository.update stAB { bookB with isbn := bookA.isbn } =
      (.error (.nameError "DuplicateISBNErrror"), stAB) := rfl

/-! Helper lemmas about list searching and archival. -/

/-- A successful `findIdx?` together with the element at that index determines
`find?`. -/
theorem find?_of_findIdx? {α : Type} (p : α → Bool) :
    ∀ (l : List α) (i : Nat) (x : α),
      l.findIdx? p = some i → l[i]? = some x → l.find? p = some x := by
  intro l
  induction l with
  | nil => intro i x h; simp [List.findIdx?] at h
  | cons a t ih =>
      intro i x h hg
      rw [List.findIdx?_cons] at h
      by_cases hp : p a
      · simp [hp] at h
        subst h
        simp at hg
        subst hg
        simp [List.find?, hp]
      · simp [hp] at h
        obtain ⟨j, hj, hji⟩ := h
        subst hji
        simp at hg
        rw [List.find?]
        simp [hp]
        exact ih j x hj hg

/-- `setArchived` flips the archived flag at the given index. -/
theorem setArchived_get (idx : Nat) (bs : List Book) (b : Book)
    (h : bs[idx]? = some b) :
    (setArchived idx bs)[idx]? = some { b with archived := true } := by
  induction bs generalizing idx with
  | nil => simp at h
  | cons a t ih =>
      cases idx with
      | zero => simp at h; subst h; simp [setArchived]
      | succ n =>
          simp at h
          simpa [setArchived] using ih n h

/-! Claim C10: archive_if_empty returns the stale pre-archive copy. -/

/-- C10: for a stored book with quantity zero and archived still false,
`archive_if_empty` persists the record with `archived := true` (the entry at
the located index in the saved books array is the archived copy), yet the
`Book` value it returns is the copy loaded before delegating to
`archive_by_isbn` and still has `archived = false`. -/
theorem claim_C10_archive_if_empty_returns_stale_copy
    (st : St) (bs : List Book) (s : String) (b : Book) (idx : Nat)
    (Hload : ∀ g, load_books g st.doc.books = .ok (bs, g))
    (Hidx : find_index_by_isbn bs (repo_normalize_isbn s) = some idx)
    (Hb : bs[idx]? = some b)
    (Hq : b.quantity = 0) (Ha : b.archived = false) :
    ∃ st', archive_if_empty st s = (.ok b, st') ∧
      b.archived = false ∧
      st'.doc.books = (setArchived idx bs).map (fun x => .obj x.to_dict) ∧
      (setArchived idx bs)[idx]? = some { b with archived := true } := by
  have hfind : bs.find? (fun x => x.isbn == repo_normalize_isbn s) = some b :=
    find?_of_findIdx? _ bs idx b Hidx Hb
  refine ⟨{ doc := { books := (setArchived idx bs).map (fun x => .obj x.to_dict),
                     sales := st.doc.sales }, gen := st.gen },
          ?_, Ha, rfl, setArchived_get idx bs b Hb⟩
  simp only [archive_if_empty, get_by_isbn, Hload, hfind, Hq, Ha,
    archive_by_isbn, Hidx, save_books]
  simp [Except.map]

/-- C10 witness: the sample zero-stock book. -/
theorem claim_C10_witness :
    ∃ st', archive_if_empty stAB "9780321125217" = (.ok bookB, st') ∧
      bookB.archived = false ∧
      st'.doc.books = (setArchived 1 [bookA, bookB]).map (fun x => .obj x.to_dict) ∧
      (setArchived 1 [bookA, bookB])[1]? = some { bookB with archived := true } :=
  claim_C10_archive_if_empty_returns_stale_copy stAB [bookA, bookB]
    "9780321125217" bookB 1 (fun _ => rfl) rfl rfl rfl rfl

/-! Sales-collection preservation lemmas (claim C6 and the historical-price
part of C1). -/

/-- `add` never touches the sales array. -/
theorem add_sales (st : St) (b : Book) :
    ((BookRepository.add st b).2).doc.sales = st.doc.sales := by
  unfold BookRepository.add
  (repeat' split) <;> simp [save_books]

/-- `update` never touches the sales array. -/
theorem update_sales (st : St) (b : Book) :
    ((BookRepository.update st b).2).doc.sales = st.doc.sales := by
  unfold BookRepository.update
  (repeat' split) <;> simp [save_books]

/-- `remove` never touches the sales array. -/
theorem remove_sales (st : St) (bid : String) :
    ((BookRepository.remove st bid).2).doc.sales = st.doc.sales := by
  unfold BookRepository.remove
  (repeat' split) <;> simp [save_books]

/-- `archive_by_isbn` never touches the sales array. -/
theorem archive_sales (st : St) (i : String) :
    ((archive_by_isbn st i).2).doc.sales = st.doc.sales := by
  unfold archive_by_isbn
  split
  · dsimp only
    split <;> simp [save_books]
  · rfl

/-- `add_book` never touches the sales array. -/
theorem add_book_sales (st : St) (t a i : String) (p : Dec) (c : String)
    (q : Int) (u : Bool) :
    ((add_book st t a i p c q u).2).doc.sales = st.doc.sales := by
  unfold add_book
  split
  · rfl
  split
  · split
    · exact add_sales _ _
    · rfl
  · rfl
  · split
    · rfl
    split
    · rfl
    · exact update_sales _ _

/-- `set_price` never touches the sales array. -/
theorem set_price_sales (st : St) (i : String) (p : Dec) :
    ((set_price st i p).2).doc.sales = st.doc.sales := by
  unfold set_price
  split
  · rfl
  · split
    · rfl
    · exact update_sales _ _

/-- `set_quantity` never touches the sales array. -/
theorem set_quantity_sales (st : St) (i : String) (q : Int) :
    ((set_quantity st i q).2).doc.sales = st.doc.sales := by
  unfold set_quantity
  split
  · rfl
  split
  · rfl
  · exact update_sales _ _

/-- `increase_stock` never touches the sales array. -/
theorem inventory_increase_stock_sales (st : St) (i : String) (n : Int) :
    ((inventory_increase_stock st i n).2).doc.sales = st.doc.sales := by
  unfold inventory_increase_stock
  split
  · rfl
  · split
    · rfl
    · exact update_sales _ _

/-- `decrease_stock` never touches the sales array. -/
theorem inventory_decrease_stock_sales (st : St) (i : String) (n : Int) :
    ((inventory_decrease_stock st i n).2).doc.sales = st.doc.sales := by
  unfold inventory_decrease_stock
  split
  · rfl
  · split
    · rfl
    · exact update_sales _ _

/-- `archive_if_empty` never touches the sales array. -/
theorem archive_if_empty_sales (st : St) (i : String) :
    ((archive_if_empty st i).2).doc.sales = st.doc.sales := by
  unfold archive_if_empty
  split
  · rfl
  · split
    · rfl
    · exact archive_sales _ _

/-- `sell` either leaves the sales array unchanged (on any failure) or appends
exactly the one record of the sale it returns at the end. -/
theorem sell_sales (st : St) (i : String) (q : Int) :
    ((sell st i q).2).doc.sales = st.doc.sales ∨
    ∃ sale, (sell st i q).1 = .ok sale ∧
      ((sell st i q).2).doc.sales = st.doc.sales ++ [.obj sale.to_dict] := by
  unfold sell
  split
  · exact Or.inl rfl
  split
  · exact Or.inl rfl
  · dsimp only
    split
    · exact Or.inl rfl
    split
    · exact Or.inl rfl
    split
    · exact Or.inl rfl
    rename_i sale g2 hcreate
    split
    · exact Or.inl rfl
    split
    · exact Or.inl (update_sales _ _)
    · refine Or.inr ⟨sale, rfl, ?_⟩
      simp [update_sales]

/-! Claim C6: the sales collection is append-only. -/

/-- C6: every mutation of the ledger (`add`, `update`, `remove`,
`archive_by_isbn`) and of the services (`add_book`, `set_price`,
`set_quantity`, `increase_stock`, `decrease_stock`, `archive_if_empty`)
leaves the persisted sales array exactly unchanged — every record present
before is present, unmodified and in place after — and `sell` either leaves it
unchanged or extends it by appending the single record of the returned sale at
the end. -/
theorem claim_C6_sales_append_only :
    (∀ st b, ((BookRepository.add st b).2).doc.sales = st.doc.sales) ∧
    (∀ st b, ((BookRepository.update st b).2).doc.sales = st.doc.sales) ∧
    (∀ st bid, ((BookRepository.remove st bid).2).doc.sales = st.doc.sales) ∧
    (∀ st i, ((archive_by_isbn st i).2).doc.sales = st.doc.sales) ∧
    (∀ st t a i p c q u, ((add_book st t a i p c q u).2).doc.sales = st.doc.sales) ∧
    (∀ st i p, ((set_price st i p).2).doc.sales = st.doc.sales) ∧
    (∀ st i q, ((set_quantity st i q).2).doc.sales = st.doc.sales) ∧
    (∀ st i n, ((inventory_increase_stock st i n).2).doc.sales = st.doc.sales) ∧
    (∀ st i n, ((inventory_decrease_stock st i n).2).doc.sales = st.doc.sales) ∧
    (∀ st i, ((archive_if_empty st i).2).doc.sales = st.doc.sales) ∧
    (∀ st i q, ((sell st i q).2).doc.sales = st.doc.sales ∨
      ∃ sale, (sell st i q).1 = .ok sale ∧
        ((sell st i q).2).doc.sales = st.doc.sales ++ [.obj sale.to_dict]) :=
  ⟨add_sales, update_sales, remove_sales, archive_sales, add_book_sales,
   set_price_sales, set_quantity_sales, inventory_increase_stock_sales,
   inventory_decrease_stock_sales, archive_if_empty_sales, sell_sales⟩

/-! Helper lemmas for the sell theorems. -/

/-- Unpacking of the decidable well-formedness flag. -/
theorem Book.wf_spec (b : Book) (h : Book.wf b = true) :
    pyStrip b.id = b.id ∧ b.id ≠ "" ∧ pyStrip b.title = b.title ∧ b.title ≠ "" ∧
    pyStrip b.author = b.author ∧ b.author ≠ "" ∧ isbnMatch b.isbn = true ∧
    pyUpper b.isbn = b.isbn ∧ stripHyphenSpace b.isbn = b.isbn ∧
    stripHyphenWs b.isbn = b.isbn ∧ pyStrip b.currency = b.currency ∧
    pyUpper b.currency = b.currency ∧ b.currency ≠ "" ∧
    0 ≤ b.price_cents ∧ 0 ≤ b.quantity := by
  simp only [Book.wf, Bool.and_eq_true, beq_iff_eq, bne_iff_ne,
    decide_eq_true_eq] at h
  tauto

/-- `Sale.create` on the fields of a well-formed book: draws the uuid and the
clock and copies the fields through unchanged. -/
theorem Sale.create_of_wf (g : Gen) (b : Book) (qty : Int)
    (hid : pyStrip b.id = b.id) (hid0 : b.id ≠ "")
    (hq : 0 < qty) (hp : 0 ≤ b.price_cents)
    (hws : stripHyphenWs b.isbn = b.isbn) (hup : pyUpper b.isbn = b.isbn)
    (hmatch : isbnMatch b.isbn = true)
    (hcs : pyStrip b.currency = b.currency) (hcu : pyUpper b.currency = b.currency)
    (hc0 : b.currency ≠ "") :
    Sale.create g b.id b.isbn qty b.price_cents b.currency none =
      .ok ({ sale_id := "uuid-" ++ toString g.nextUuid, book_id := b.id,
             isbn := b.isbn, qty := qty, unit_price_cents := b.price_cents,
             currency := b.currency, timestamp := g.clock },
           { nextUuid := g.nextUuid + 1, clock := g.clock + 1 }) := by
  have hq' : ¬ qty ≤ 0 := by omega
  have hp' : ¬ b.price_cents < 0 := by omega
  unfold Sale.create sale_normalize_isbn
  simp [hid, hid0, hq', hp', hws, hup, hmatch, hcs, hcu, hc0,
    validate_positive_int, validate_non_negative_int, Gen.uuid, Gen.now]
  rfl

/-! Claim C2: selling more than the stock. -/

/-- C2 counterexample: the claim quantifies over every stored book, but for an
archived stored book (stock 0, requested 1 > 0) `sell` raises the
archived-book `ValidationError`, not `OutOfStockError`; the archived check
runs before the stock check. -/
theorem claim_C2_counterexample :
    sell stArch "9780321125217" 1 =
      (.error (.validation "book" "Cannot sell an archived book."), stArch) := rfl

/-- C2 (amended): for every stored non-archived book and qty > 0 exceeding its
quantity, `sell` raises `OutOfStockError` carrying the normalized ISBN, the
requested and the available quantity, and returns the state unchanged (books
and sales untouched). -/
theorem claim_C2_out_of_stock (st : St) (bs : List Book) (s : String)
    (qty : Int) (b : Book)
    (Hload : ∀ g, load_books g st.doc.books = .ok (bs, g))
    (Hfind : bs.find? (fun x => x.isbn == repo_normalize_isbn s) = some b)
    (Ha : b.archived = false)
    (Hq : 0 < qty) (Hgt : b.quantity < qty) :
    sell st s qty =
      (.error (.outOfStock (repo_normalize_isbn s) qty b.quantity), st) ∧
    ((sell st s qty).2).doc.books = st.doc.books ∧
    ((sell st s qty).2).doc.sales = st.doc.sales := by
  have hisbn : b.isbn = repo_normalize_isbn s := by
    have := List.find?_some Hfind
    simpa [beq_iff_eq] using this
  have hq' : ¬ qty ≤ 0 := by omega
  have hmain : sell st s qty =
      (.error (.outOfStock (repo_normalize_isbn s) qty b.quantity), st) := by
    simp only [sell, get_by_isbn, Hload, Hfind, if_neg hq', Ha, hisbn]
    simp [Hgt]
  exact ⟨hmain, by rw [hmain], by rw [hmain]⟩

/-- C2 witness: the sample in-stock book, oversold. -/
theorem claim_C2_witness :
    sell stAB "9780132350884" 5 =
      (.error (.outOfStock "9780132350884" 5 2), stAB) :=
  (claim_C2_out_of_stock stAB [bookA, bookB] "9780132350884" 5 bookA
    (fun _ => rfl) rfl rfl (by omega) (by decide)).1

/-! Claim C1: the in-stock sell path. -/

/-- `decrease_stock` on a sufficient stock subtracts exactly `qty`. -/
theorem decrease_stock_ok (b : Book) (qty : Int) (hq : 0 < qty)
    (hle : qty ≤ b.quantity) :
    b.decrease_stock qty = .ok { b with quantity := b.quantity - qty } := by
  have hq' : ¬ qty ≤ 0 := by omega
  have hlt' : ¬ b.quantity < qty := by omega
  unfold Book.decrease_stock validate_positive_int
  rw [if_neg hq']
  simp only [bind, Except.bind]
  rw [if_neg hlt']
  rfl

/-- `update` on a decoded list with the target at the located index and no
other ISBN collision replaces the entry in place and saves. -/
theorem update_ok (st : St) (bs : List Book) (b2 : Book) (jdx : Nat)
    (Hload : ∀ g, load_books g st.doc.books = .ok (bs, g))
    (Hidx : find_index_by_id bs b2.id = some jdx)
    (Hdup : (bs.enum.any fun p => p.1 != jdx && p.2.isbn == b2.isbn) = false) :
    BookRepository.update st b2 =
      (.ok (), { doc := { books := (bs.set jdx b2).map (fun x => .obj x.to_dict),
                          sales := st.doc.sales },
                 gen := st.gen }) := by
  unfold BookRepository.update
  rw [Hload st.gen]
  dsimp only
  rw [Hidx]
  dsimp only
  rw [Hdup]
  simp [save_books]

/-- C1: selling `qty > 0` of a stored, non-archived, well-formed book whose
stock suffices succeeds, persists the book with its quantity decreased by
exactly `qty`, appends exactly one sale record at the end of the sales array,
and that record copies the book's `price_cents` (and currency and id) at call
time; a later `set_price` leaves the appended record untouched. -/
theorem claim_C1_sell_in_stock (st : St) (bs : List Book) (s : String)
    (qty : Int) (b : Book) (jdx : Nat)
    (Hload : ∀ g, load_books g st.doc.books = .ok (bs, g))
    (Hfind : bs.find? (fun x => x.isbn == repo_normalize_isbn s) = some b)
    (Hwf : Book.wf b = true)
    (Hidx : find_index_by_id bs b.id = some jdx)
    (Hdup : (bs.enum.any fun p => p.1 != jdx && p.2.isbn == b.isbn) = false)
    (Hq : 0 < qty) (Hle : qty ≤ b.quantity) (Ha : b.archived = false) :
    ∃ sale st',
      sell st s qty = (.ok sale, st') ∧
      sale.book_id = b.id ∧ sale.isbn = b.isbn ∧ sale.qty = qty ∧
      sale.unit_price_cents = b.price_cents ∧ sale.currency = b.currency ∧
      st'.doc.books =
        (bs.set jdx { b with quantity := b.quantity - qty }).map
          (fun x => .obj x.to_dict) ∧
      st'.doc.sales = st.doc.sales ++ [.obj sale.to_dict] ∧
      (∀ p, ((set_price st' s p).2).doc.sales =
        st.doc.sales ++ [.obj sale.to_dict]) := by
  obtain ⟨hid, hid0, _, _, _, _, hmatch, hup, _, hws, hcs, hcu, hc0, hp, _⟩ :=
    Book.wf_spec b Hwf
  have hq' : ¬ qty ≤ 0 := by omega
  have hlt' : ¬ b.quantity < qty := by omega
  have hcreate := Sale.create_of_wf st.gen b qty hid hid0 Hq hp hws hup hmatch
    hcs hcu hc0
  have hdec := decrease_stock_ok b qty Hq Hle
  have hupd := update_ok
    { doc := st.doc, gen := { nextUuid := st.gen.nextUuid + 1, clock := st.gen.clock + 1 } }
    bs { b with quantity := b.quantity - qty } jdx Hload Hidx Hdup
  refine ⟨{ sale_id := "uuid-" ++ toString st.gen.nextUuid, book_id := b.id,
            isbn := b.isbn, qty := qty, unit_price_cents := b.price_cents,
            currency := b.currency, timestamp := st.gen.clock },
          { doc := { books := (bs.set jdx { b with quantity := b.quantity - qty }).map
                        (fun x => .obj x.to_dict),
                     sales := st.doc.sales ++
                       [.obj ({ sale_id := "uuid-" ++ toString st.gen.nextUuid,
                                book_id := b.id, isbn := b.isbn, qty := qty,
                                unit_price_cents := b.price_cents,
                                currency := b.currency,
                                timestamp := st.gen.clock } : Sale).to_dict] },
            gen := { nextUuid := st.gen.nextUuid + 1, clock := st.gen.clock + 1 } },
          ?_, rfl, rfl, rfl, rfl, rfl, rfl, rfl, fun p => set_price_sales _ _ _⟩
  rw [Ha] at hupd
  simp only [sell, if_neg hq', get_by_isbn, Hload, Hfind]
  simp only [Ha, Bool.false_eq_true, if_false, if_neg hlt', hcreate, hdec, hupd]

/-- C1 witness: selling one of the two copies of the first sample book. -/
theorem claim_C1_witness :
    ∃ sale st',
      sell stAB "978-0132350884" 1 = (.ok sale, st') ∧
      sale.book_id = bookA.id ∧ sale.isbn = bookA.isbn ∧ sale.qty = 1 ∧
      sale.unit_price_cents = bookA.price_cents ∧ sale.currency = bookA.currency ∧
      st'.doc.books =
        ([bookA, bookB].set 0 { bookA with quantity := bookA.quantity - 1 }).map
          (fun x => .obj x.to_dict) ∧
      st'.doc.sales = stAB.doc.sales ++ [.obj sale.to_dict] ∧
      (∀ p, ((set_price st' "978-0132350884" p).2).doc.sales =
        stAB.doc.sales ++ [.obj sale.to_dict]) :=
  claim_C1_sell_in_stock stAB [bookA, bookB] "978-0132350884" 1 bookA 0
    (fun _ => rfl) rfl (by decide) rfl (by decide) (by omega) (by decide) rfl

/-! Claim C4: decode robustness. -/

/-- C4 counterexample: the claim says every ledger read returns the records
that decode successfully regardless of how the other records are malformed,
including records with missing fields; but a record with a missing `title` key
raises `KeyError`, which `_load_books` does not catch, so `list_all` aborts
entirely instead of returning the one good record. -/
theorem claim_C4_counterexample :
    list_all stMissingField true = .error (.keyError "title") := rfl

/-- C4 (amended): a record whose decoding fails with `ValidationError` is
skipped (removing it from the books array does not change the result of the
load), and when every record decodes successfully or fails with
`ValidationError` the load returns exactly the successfully decoded records in
order; but a record whose decoding raises any other error (missing required
key, malformed timestamp, non-numeric field) makes the whole load fail. -/
theorem claim_C4_decode_robustness :
    (∀ g pre post j f m,
      (∀ g', Book.from_dict g' j = .error (.validation f m)) →
      load_books g (pre ++ j :: post) = load_books g (pre ++ post)) ∧
    (∀ g raw j e, j ∈ raw →
      (∀ g', Book.from_dict g' j = .error e) →
      (∀ f m, e ≠ .validation f m) →
      ∃ e', load_books g raw = .error e') ∧
    (∀ g raw,
      (∀ j ∈ raw, (∃ f m, ∀ g', Book.from_dict g' j = .error (.validation f m)) ∨
                  (∃ b, ∀ g', Book.from_dict g' j = .ok (b, g'))) →
      load_books g raw =
        .ok (raw.filterMap
          (fun j => ((Book.from_dict g j).toOption).map Prod.fst), g)) := by
  refine ⟨?_, ?_, ?_⟩
  · intro g pre post j f m hval
    induction pre generalizing g with
    | nil => simp [load_books, hval g]
    | cons p pre ih =>
        simp only [List.cons_append, load_books]
        cases hfd : Book.from_dict g p with
        | ok bg =>
            rcases bg with ⟨b2, g1⟩
            dsimp only
            rw [show pre.append (j :: post) = pre ++ j :: post from rfl,
                show pre.append post = pre ++ post from rfl, ih g1]
        | error e =>
            cases e <;> simp [ih g]
  · intro g raw j e hmem hj hne
    induction raw generalizing g with
    | nil => simp at hmem
    | cons p rest ih =>
        rcases List.mem_cons.mp hmem with hpj | hmem'
        · subst hpj
          refine ⟨e, ?_⟩
          rw [load_books, hj g]
          cases e with
          | validation f m => exact absurd rfl (hne f m)
          | _ => rfl
        · rw [load_books]
          cases hfd : Book.from_dict g p with
          | ok bg =>
              rcases bg with ⟨b2, g1⟩
              obtain ⟨e', he'⟩ := ih g1 hmem'
              refine ⟨e', ?_⟩
              dsimp only
              rw [he']
          | error e2 =>
              cases e2 with
              | validation f2 m2 => exact ih g hmem'
              | _ => exact ⟨_, rfl⟩
  · intro g raw hall
    induction raw generalizing g with
    | nil => rfl
    | cons p rest ih =>
        rcases hall p (List.mem_cons_self p rest) with ⟨f, m, hv⟩ | ⟨b, hok⟩
        · rw [load_books, hv g]
          rw [ih g (fun j hj => hall j (List.mem_cons_of_mem p hj))]
          simp [List.filterMap_cons, hv g, Except.toOption]
        · rw [load_books, hok g]
          dsimp only
          rw [ih g (fun j hj => hall j (List.mem_cons_of_mem p hj))]
          simp [List.filterMap_cons, hok g, Except.toOption]

/-- C4 witness: the skip clause of the amended theorem applied to the sample
record with a blank title. -/
theorem claim_C4_witness :
    load_books gen0 [recEmptyTitle] = load_books gen0 [] :=
  claim_C4_decode_robustness.1 gen0 [] [] recEmptyTitle
    "title" "Must be a non-empty string" (fun _ => rfl)

/-! Claim C9: encode/decode round trip. -/

/-- Quantizing `n * 100 / 100` returns `n` exactly. -/
theorem roundHalfEvenDiv_mul100 (n : Int) :
    roundHalfEvenDiv (n * 100) (pow10 2) = n := by
  have h1 : (n * 100).ediv 100 = n := Int.mul_ediv_cancel n (by norm_num)
  have h2 : (n * 100).emod 100 = 0 := Int.mul_emod_left n 100
  show roundHalfEvenDiv (n * 100) 100 = n
  unfold roundHalfEvenDiv
  rw [h1, h2]
  norm_num

/-- `_to_cents` of an exact cents amount is the identity: no rounding. -/
theorem to_cents_cents (n : Int) (h : 0 ≤ n) :
    to_cents { num := n, exp := 2 } = .ok n := by
  unfold to_cents
  dsimp only
  rw [if_neg (by omega : ¬ n < 0)]
  exact congrArg Except.ok (roundHalfEvenDiv_mul100 n)

/-- C9: decoding the encoded form of a well-formed book returns a book equal
field by field to the original — id, title, author, isbn, price_cents (exact,
no rounding), currency, quantity, archived and created_at all survive the
round trip — and consumes no uuid or clock. -/
theorem claim_C9_round_trip (b : Book) (Hwf : Book.wf b = true) (g : Gen) :
    Book.from_dict g (.obj b.to_dict) = .ok (b, g) := by
  obtain ⟨hid, hid0, ht, ht0, ha, ha0, hmatch, hup, hsp, hws, hcs, hcu, hc0,
    hp, hq0⟩ := Book.wf_spec b Hwf
  have j1 : jGet b.to_dict "created_at" = some (.tstr b.created_at) := rfl
  have j2 : jGet b.to_dict "price_cents" = some (.num b.price_cents) := rfl
  have j3 : jGet b.to_dict "title" = some (.str b.title) := rfl
  have j4 : jGet b.to_dict "author" = some (.str b.author) := rfl
  have j5 : jGet b.to_dict "isbn" = some (.str b.isbn) := rfl
  have j6 : jGet b.to_dict "currency" = some (.str b.currency) := rfl
  have j7 : jGet b.to_dict "quantity" = some (.num b.quantity) := rfl
  have j8 : jGet b.to_dict "id" = some (.str b.id) := rfl
  have j9 : jGet b.to_dict "archived" = some (.bool b.archived) := rfl
  unfold Book.from_dict
  simp only [j1, j2, j3, j4, j5, j6, j7, j8, j9, Option.getD_some,
    fromisoformat, pyInt]
  unfold bookInit
  simp only [hid0, if_neg hid0]
  simp [validate_non_empty, validate_currency, book_normalize_isbn,
    validate_non_negative_int, ht, ht0, ha, ha0, hsp, hup, hmatch, hcs, hcu,
    hc0, to_cents_cents b.price_cents hp, pyBool,
    (by omega : ¬ b.quantity < 0), hid0, bind, Except.bind, Except.map,
    pure, Except.pure]
  rw [if_neg (by omega : ¬ b.quantity < 0)]

/-- C9 witness: the sample book round-trips. -/
theorem claim_C9_witness :
    Book.from_dict gen0 (.obj bookA.to_dict) = .ok (bookA, gen0) :=
  claim_C9_round_trip bookA (by decide) gen0

/-! Claim C7: search semantics. -/

/-- With a positive limit, the collection loop gathers the first `limit`
matches in document order. -/
theorem searchCollect_eq_take (q : String) :
    ∀ (limit : Int) (l : List Book), 1 ≤ limit →
      searchCollect q limit l = (l.filter (searchMatch q)).take limit.toNat := by
  intro limit l
  induction l generalizing limit with
  | nil => intro _; simp [searchCollect]
  | cons b rest ih =>
      intro hlim
      rw [searchCollect]
      cases hm : searchMatch q b with
      | false => simp [hm, List.filter_cons, ih limit hlim]
      | true =>
          by_cases h1 : limit ≤ 1
          · have hone : limit = 1 := by omega
            subst hone
            simp [hm, List.filter_cons]
          · have h2 : (1 : Int) ≤ limit - 1 := by omega
            have h3 : (limit - 1).toNat = limit.toNat - 1 := by omega
            have h4 : limit.toNat = (limit.toNat - 1) + 1 := by omega
            rw [if_pos rfl, if_neg h1, ih (limit - 1) h2, h3]
            simp only [List.filter_cons, hm, if_pos rfl]
            rw [h4]
            simp [List.take_succ_cons]

/-- C7: search with an empty or whitespace-only query returns the empty list;
otherwise, with a positive limit, it returns a permutation of the first
`limit` matches collected in document order over the visible books
(case-insensitive substring of title, author, or ISBN), sorted ascending by
the key `(title lowercased, author lowercased)`, with at most `limit`
results. -/
theorem claim_C7_search (st : St) (bs : List Book) (query : String)
    (ia : Bool) (limit : Int)
    (Hload : ∀ g, load_books g st.doc.books = .ok (bs, g))
    (Hlim : 1 ≤ limit) :
    (pyLower (pyStrip query) = "" → search st query ia limit = .ok ([], st.gen)) ∧
    (pyLower (pyStrip query) ≠ "" →
      ∃ res, search st query ia limit = .ok (res, st.gen) ∧
        List.Perm res
          (((if ia then bs else bs.filter (fun b => !b.archived)).filter
            (searchMatch (pyLower (pyStrip query)))).take limit.toNat) ∧
        res.Sorted searchKeyLe ∧
        res.length ≤ limit.toNat) := by
  have hla : list_all st ia =
      .ok ((if ia then bs else bs.filter (fun b => !b.archived)), st.gen) := by
    unfold list_all
    rw [Hload st.gen]
    cases ia <;> simp
  constructor
  · intro hq
    unfold search
    rw [if_pos hq]
  · intro hq
    have hs : search st query ia limit =
        .ok (List.insertionSort searchKeyLe
          (searchCollect (pyLower (pyStrip query)) limit
            (if ia then bs else bs.filter (fun b => !b.archived))), st.gen) := by
      unfold search
      rw [if_neg hq, hla]
    refine ⟨_, hs, ?_, ?_, ?_⟩
    · rw [searchCollect_eq_take _ _ _ Hlim]
      exact List.perm_insertionSort searchKeyLe _
    · exact List.sorted_insertionSort searchKeyLe _
    · have hperm := List.perm_insertionSort searchKeyLe
        (searchCollect (pyLower (pyStrip query)) limit
          (if ia then bs else bs.filter (fun b => !b.archived)))
      rw [hperm.length_eq, searchCollect_eq_take _ _ _ Hlim]
      simp [List.length_take_le]

/-- C7 witness: searching the sample catalog for a fragment of an author. -/
theorem claim_C7_witness :
    pyLower (pyStrip "ncle") ≠ "" ∧
    ∃ res, search stAB "ncle" false 50 = .ok (res, stAB.gen) ∧
      List.Perm res
        ((([bookA, bookB].filter (fun b => !b.archived)).filter
          (searchMatch (pyLower (pyStrip "ncle")))).take (50 : Int).toNat) ∧
      res.Sorted searchKeyLe ∧
      res.length ≤ (50 : Int).toNat :=
  ⟨by decide,
   (claim_C7_search stAB [bookA, bookB] "ncle" false 50
      (fun _ => rfl) (by omega)).2 (by decide)⟩

/-! Claim C8: list_sales ordering and limit. -/

/-- C8: `list_sales` sorts the (optionally ISBN-filtered) decoded sales
ascending by timestamp; with a positive limit `n` it returns the suffix of
that sorted sequence holding the chronologically last `min n (length)`
entries; with a non-positive limit or no limit it returns the whole sorted
sequence. -/
theorem claim_C8_list_sales (st : St) (ss : List Sale)
    (Hdec : decode_sales st.doc.sales = .ok ss) :
    ((List.insertionSort tsLe ss).Sorted tsLe ∧
      List.Perm (List.insertionSort tsLe ss) ss) ∧
    (∀ n : Int, 0 < n →
      list_sales st none (some n) =
        .ok ((List.insertionSort tsLe ss).drop
          ((List.insertionSort tsLe ss).length - n.toNat)) ∧
      ((List.insertionSort tsLe ss).drop
          ((List.insertionSort tsLe ss).length - n.toNat)) <:+
        List.insertionSort tsLe ss ∧
      ((List.insertionSort tsLe ss).drop
          ((List.insertionSort tsLe ss).length - n.toNat)).length =
        min n.toNat ss.length) ∧
    (∀ n : Int, n ≤ 0 →
      list_sales st none (some n) = .ok (List.insertionSort tsLe ss)) ∧
    (list_sales st none none = .ok (List.insertionSort tsLe ss)) ∧
    (∀ s norm, s ≠ "" → pyStrip s ≠ "" → sale_normalize_isbn s = .ok norm →
      ∀ n : Int, 0 < n →
        list_sales st (some s) (some n) =
          .ok ((List.insertionSort tsLe (ss.filter (fun x => x.isbn == norm))).drop
            ((List.insertionSort tsLe
              (ss.filter (fun x => x.isbn == norm))).length - n.toNat))) := by
  refine ⟨⟨List.sorted_insertionSort tsLe ss, List.perm_insertionSort tsLe ss⟩,
    ?_, ?_, ?_, ?_⟩
  · intro n hn
    refine ⟨?_, List.drop_suffix _ _, ?_⟩
    · unfold list_sales
      rw [Hdec]
      simp [bind, Except.bind, pure, Except.pure, if_pos hn]
    · rw [List.length_drop,
        (List.perm_insertionSort tsLe ss).length_eq]
      omega
  · intro n hn
    unfold list_sales
    rw [Hdec]
    have : ¬ (0 : Int) < n := by omega
    simp [bind, Except.bind, pure, Except.pure, this]
  · unfold list_sales
    rw [Hdec]
    simp [bind, Except.bind, pure, Except.pure]
  · intro s norm hs1 hs2 hnorm n hn
    unfold list_sales
    rw [Hdec]
    have hcond : (s != "" && pyStrip s != "") = true := by simp [hs1, hs2]
    simp [bind, Except.bind, pure, Except.pure, hcond, hnorm, if_pos hn]

/-- C8 witness: limit 1 over the two out-of-order sample sales. -/
theorem claim_C8_witness :
    list_sales stSales none (some 1) =
      .ok ((List.insertionSort tsLe [saleX, saleY]).drop
        ((List.insertionSort tsLe [saleX, saleY]).length - (1 : Int).toNat)) :=
  ((claim_C8_list_sales stSales [saleX, saleY] rfl).2.1 1 (by omega)).1

end OnlineBookstore
